import Mathlib

/-!
Verification development for the session-scoped multi-artifact context engine
of the `ragAIFullStack` backend.

Python strings are modelled as `List Char` wherever their contents are
computed on (splitting, truncation, rendered prompt text), and as Lean
`String` for opaque identifiers (session ids, file ids, filenames, paths).
Timestamps (`time.time()` floats) are modelled as `Int`: the code only ever
compares them and subtracts them.  Python dicts whose iteration order
matters (the per-session artifact mappings, insertion-ordered) are modelled
as association lists `List (String × _)`; the top-level `app.state` dicts,
whose iteration order never matters, are modelled as functions
`String → Option _`.
-/

/-! ## Python string primitives -/

/-- Python `s[-n:]` for `n > 0`: the last `n` characters (all of `s` when
`n ≥ len(s)`). -/
def takeLast (n : Nat) (l : List Char) : List Char :=
  l.drop (l.length - n)

/-- Python `str.strip()`: drop whitespace from both ends. -/
def pyStrip (l : List Char) : List Char :=
  ((l.dropWhile Char.isWhitespace).reverse.dropWhile Char.isWhitespace).reverse

/-- Worker for Python `str.split(sep)`: scans left to right, emitting the
accumulated piece (in reverse) each time `sep` occurs.  `acc` holds the
characters of the current piece, most recent first.  The `fuel` argument
only makes the recursion structural: every step consumes at least one
character (the separator is nonempty), so any `fuel ≥ text.length` computes
the scan to completion, and the `fuel = 0` fallback coincides with the
`text = []` case whenever that bound holds. -/
def pySplitGo (sep : List Char) : Nat → List Char → List Char → List (List Char)
  | 0, text, acc => [acc.reverse ++ text]
  | fuel + 1, text, acc =>
    if sep ≠ [] ∧ sep <+: text then
      acc.reverse :: pySplitGo sep fuel (text.drop sep.length) []
    else
      match text with
      | [] => [acc.reverse]
      | c :: rest => pySplitGo sep fuel rest (c :: acc)

/-- Python `text.split(sep)` for a nonempty separator (the only way the
repository calls it; Python raises on an empty separator, and no call site
passes one). -/
def pySplit (sep text : List Char) : List (List Char) :=
  pySplitGo sep text.length text []

/-- Python `sep.join(parts)`. -/
def joinWith (sep : List Char) : List (List Char) → List Char
  | [] => []
  | [x] => x
  | x :: y :: xs => x ++ sep ++ joinWith sep (y :: xs)

/-- Python `str.upper()` (character-wise uppercasing; the repository only
uppercases the ASCII kind names `images`/`csvs`/`documents`). -/
def pyUpper (s : String) : String :=
  ⟨s.data.map Char.toUpper⟩

/-! ## TextChunker (`backend/utils/text_splitter.py`, `RecursiveTextSplitter`)

`_split_recursive` (lines 85–123) iterates over `text.split(separator)`
accumulating pieces into `current_chunk`, flushing `current_chunk.strip()`
when the next piece would not fit, and recursing into an oversized piece
with the remaining separators only when `current_chunk` is empty.  The
`for`-loop is modelled by `chunk_loop` (structural recursion over the list
of pieces, carrying the `chunks`/`current_chunk` state); the recursion into
finer separators is passed in as `sub`. -/

/-- The body of the `for split in splits:` loop of `_split_recursive`.
Returns the final `(chunks, current_chunk)` pair. -/
def chunk_loop (chunk_size chunk_overlap : Nat) (sub : List Char → List (List Char))
    (sep : List Char) :
    List (List Char) → List (List Char) → List Char → List (List Char) × List Char
  | [], chunks, cur => (chunks, cur)
  | split :: more, chunks, cur =>
    if chunk_size < cur.length + split.length + sep.length then
      if cur.isEmpty then
        if chunk_size < split.length then
          chunk_loop chunk_size chunk_overlap sub sep more (chunks ++ sub split) cur
        else
          chunk_loop chunk_size chunk_overlap sub sep more chunks split
      else
        chunk_loop chunk_size chunk_overlap sub sep more (chunks ++ [pyStrip cur])
          (if 0 < chunk_overlap then takeLast chunk_overlap cur ++ sep ++ split else split)
    else
      chunk_loop chunk_size chunk_overlap sub sep more chunks
        (if cur.isEmpty then split else cur ++ sep ++ split)

/-- `RecursiveTextSplitter._split_recursive(text, separators)`. -/
def split_recursive (chunk_size chunk_overlap : Nat) :
    List (List Char) → List Char → List (List Char)
  | [], text => if text.isEmpty then [] else [text]
  | sep :: rest, text =>
    if text.length ≤ chunk_size then (if text.isEmpty then [] else [text])
    else
      let r := chunk_loop chunk_size chunk_overlap
        (fun t => split_recursive chunk_size chunk_overlap rest t) sep
        (pySplit sep text) [] []
      r.1 ++ (if r.2.isEmpty then [] else [pyStrip r.2])

/-- The separator precedence list of `RecursiveTextSplitter.__init__`:
paragraph break, line break, sentence boundary, word boundary. -/
def recursiveSeparators : List (List Char) :=
  ["\n\n".data, "\n".data, ". ".data, " ".data]

/-- `RecursiveTextSplitter.split_text`. -/
def split_text (chunk_size chunk_overlap : Nat) (text : List Char) : List (List Char) :=
  split_recursive chunk_size chunk_overlap recursiveSeparators text

set_option maxRecDepth 8000

/-! ## Data model

Artifact records as stored in `request.app.state.sessions[sid]` by the
upload endpoints (`upload_image.py` lines 85–92, `upload_csv.py` lines
67–73 and 125–133, `upload_doc.py` lines 74–82).  Fields the claims never
touch (PIL metadata, pandas frames) are kept as opaque values: the pandas
renderings `df.head().to_string()` / `df.describe().to_string()` are
external-collaborator output and appear as the opaque fields `head_str` /
`describe_str`. -/

structure ImageRecord where
  path : String
  resized_path : Option String
  filename : String
  uploaded_at : Int
deriving DecidableEq

structure CsvRecord where
  /-- URL-loaded CSVs (`upload_csv_url`) store no `path` key, hence `Option`. -/
  path : Option String
  filename : String
  shape : Nat × Nat
  columns : List String
  head_str : List Char
  describe_str : List Char
  uploaded_at : Int
deriving DecidableEq

structure DocRecord where
  path : String
  filename : String
  text : List Char
  uploaded_at : Int
deriving DecidableEq

/-- One session's entry of `request.app.state.sessions`. -/
structure SessionData where
  images : List (String × ImageRecord)
  csvs : List (String × CsvRecord)
  documents : List (String × DocRecord)
  created_at : Int
  last_activity : Int
deriving DecidableEq

/-- A conversation turn as appended by the chat endpoint (`chat.py` lines
48–57 and 86–90); `context` carries the artifact counts recorded with user
turns. -/
structure ChatMsg where
  role : String
  content : List Char
  timestamp : Int
  context : Option (Nat × Nat × Nat) := none
deriving DecidableEq

/-- The two process-global dicts `app.state.sessions` and
`app.state.chat_history`. -/
structure AppState where
  sessions : String → Option SessionData
  chat_history : String → Option (List ChatMsg)

/-- `d[k] = v` on a dict modelled as a function. -/
def fupdate {α : Type} (f : String → Option α) (k : String) (v : α) : String → Option α :=
  fun s => if s = k then some v else f s

/-- `if k in d: del d[k]` on a dict modelled as a function (deleting an
absent key is a no-op, which the same function value also captures). -/
def fremove {α : Type} (f : String → Option α) (k : String) : String → Option α :=
  fun s => if s = k then none else f s

/-! ## Ordered file index (`chat.py` lines 60–76)

The endpoint collects every artifact of the three kinds into `all_files`
(iterating the kinds in the fixed order `images`, `csvs`, `documents` and
each insertion-ordered mapping in order), then runs `all_files.sort(key=
lambda f: f["uploaded_at"])`.  Python `list.sort` is a stable ascending
sort, and a stable sort by a key is a unique function of the input list, so
it is modelled by the stable insertion sort `sort_files`. -/

structure FileDesc where
  ftype : String
  file_id : String
  filename : String
  uploaded_at : Int
deriving DecidableEq

def all_files (images : List (String × ImageRecord)) (csvs : List (String × CsvRecord))
    (documents : List (String × DocRecord)) : List FileDesc :=
  images.map (fun p => ⟨"images", p.1, p.2.filename, p.2.uploaded_at⟩)
    ++ csvs.map (fun p => ⟨"csvs", p.1, p.2.filename, p.2.uploaded_at⟩)
    ++ documents.map (fun p => ⟨"documents", p.1, p.2.filename, p.2.uploaded_at⟩)

/-- Stable insertion step: a later element with an equal `uploaded_at` goes
after the earlier ones, exactly as Python's stable sort places it. -/
def insert_by_uploaded_at (f : FileDesc) : List FileDesc → List FileDesc
  | [] => [f]
  | g :: gs =>
    if f.uploaded_at ≤ g.uploaded_at then f :: g :: gs else g :: insert_by_uploaded_at f gs

/-- `all_files.sort(key=lambda f: f["uploaded_at"])` (stable, ascending). -/
def sort_files : List FileDesc → List FileDesc
  | [] => []
  | f :: fs => insert_by_uploaded_at f (sort_files fs)

/-- One line `f"[{i+1}] {f['type'].upper()} → {f['filename']}"` of the
rendered index (`i` is the 0-based position in the sorted list). -/
def ordered_context_line (p : Nat × FileDesc) : List Char :=
  ("[" ++ toString (p.1 + 1) ++ "] " ++ pyUpper p.2.ftype ++ " → " ++ p.2.filename).data

def ordered_context_lines (fs : List FileDesc) : List (List Char) :=
  fs.enum.map ordered_context_line

/-- The rendered index `"\n".join(...)` over the sorted descriptor list. -/
def ordered_context_str (fs : List FileDesc) : List Char :=
  joinWith "\n".data (ordered_context_lines fs)

/-! ## Gemini context assembly (`backend/services/gemini_service.py`, `chat`)

`context_parts` mixes text strings and PIL image objects; a part is either
text or a loaded image (identified by the path it was opened from).
`Image.open` touching the filesystem is the external collaborator: it is
passed in as an oracle `load : String → Bool` saying whether opening the
backing file succeeds, which is exactly the `try/except` boundary of lines
112–119. -/

inductive GPart where
  | text (s : List Char)
  | image (path : String)
deriving DecidableEq

/-- Document truncation constants of `gemini_service.chat` (lines 85–86). -/
def max_chars_per_doc : Nat := 15000
def max_total_chars : Nat := 50000

def docTruncatedMark : List Char := "\n\n[Document truncated...]".data
def remainingDocsMark : List Char := "\n\n[Remaining documents truncated...]".data

/-- `text[:max_chars_per_doc] + ("\n\n[Document truncated...]" if len(text) >
max_chars_per_doc else "")` (line 90–92). -/
def truncated_doc_text (text : List Char) : List Char :=
  text.take max_chars_per_doc ++
    (if max_chars_per_doc < text.length then docTruncatedMark else [])

def doc_header (fid : String) (filename : String) : List Char :=
  ("\n--- Document: " ++ filename ++ " (file_id: " ++ fid ++ ") ---").data

/-- The `for file_id, doc_info in documents.items():` loop of lines 87–103,
carrying `total_chars`.  The Python loop appends the header and the
truncated text as two consecutive list elements; they are produced here as
a pair per document and flattened by `doc_context_items`. -/
def doc_loop : List (String × DocRecord) → Nat → List (List Char × List Char)
  | [], _ => []
  | (fid, d) :: rest, total_chars =>
    let truncated_text := truncated_doc_text d.text
    if max_total_chars < total_chars + truncated_text.length then
      if 1000 < max_total_chars - total_chars then
        [(doc_header fid d.filename,
          truncated_text.take (max_total_chars - total_chars) ++ remainingDocsMark)]
      else []
    else
      (doc_header fid d.filename, truncated_text) ::
        doc_loop rest (total_chars + truncated_text.length)

/-- The full `doc_context` list (line 83 plus the loop's appends). -/
def doc_context_items (documents : List (String × DocRecord)) : List (List Char) :=
  "Document Context:".data :: (doc_loop documents 0).flatMap (fun p => [p.1, p.2])

/-- Lines 51–57: previous-conversation block (all but the in-flight message,
rendered as `"role: content"` lines). -/
def history_block (history : List ChatMsg) : List GPart :=
  if history.isEmpty then []
  else
    let history_text :=
      joinWith "\n".data (history.dropLast.map (fun m => m.role.data ++ ": ".data ++ m.content))
    if history_text.isEmpty then []
    else [.text ("Previous conversation:\n".data ++ history_text ++ "\n".data)]

/-- Lines 60–65: ordered-index block. -/
def ordered_block (ordered_context : List Char) : List GPart :=
  if ordered_context.isEmpty then []
  else [.text ("File upload order (earliest first):\n".data ++ ordered_context
    ++ "\nPlease refer to files in this order when answering.\n".data)]

/-- Lines 73–77: one CSV's entries of `csv_context`. -/
def csv_entry (fid : String) (c : CsvRecord) : List (List Char) :=
  [("\n--- CSV File: " ++ c.filename ++ " (file_id: " ++ fid ++ ") ---").data,
   ("Shape: " ++ toString c.shape.1 ++ " rows, " ++ toString c.shape.2 ++ " columns").data,
   "Columns: ".data ++ joinWith ", ".data (c.columns.map String.data),
   "\nFirst 5 rows:\n".data ++ c.head_str,
   "\nSummary statistics:\n".data ++ c.describe_str]

/-- Lines 68–79: tabular-data block. -/
def csv_block (csvs : List (String × CsvRecord)) : List GPart :=
  if csvs.isEmpty then []
  else [.text (joinWith "\n".data
    ("CSV Data Context:".data :: csvs.flatMap (fun p => csv_entry p.1 p.2)))]

/-- Lines 82–105: document block. -/
def doc_block (documents : List (String × DocRecord)) : List GPart :=
  if documents.isEmpty then []
  else [.text (joinWith "\n".data (doc_context_items documents))]

/-- Line 111: `image_info.get('resized_path') or image_info['path']`
(Python `or` falls through on `None` and on an empty string). -/
def image_source_path (r : ImageRecord) : String :=
  match r.resized_path with
  | some p => if p = "" then r.path else p
  | none => r.path

/-- Lines 108–124: per-image entries, substituting a placeholder when
`Image.open` fails, plus the multi-image note. -/
def image_block (load : String → Bool) (images : List (String × ImageRecord)) : List GPart :=
  images.flatMap (fun p =>
    if load (image_source_path p.2) then
      [.image (image_source_path p.2),
       .text (("[Image: " ++ p.2.filename ++ " (file_id: " ++ p.1 ++ ")]").data)]
    else
      [.text (("[Failed to load image: " ++ p.2.filename ++ "]").data)])
  ++ (if 1 < images.length then
        [.text (("\nNote: " ++ toString images.length
          ++ " images have been uploaded. Please refer to them by filename when answering.").data)]
      else [])

/-- The complete `context_parts` of `gemini_service.chat` (success path up
to the `generate_content` call): history, ordered index, CSVs, documents,
images, then the new user message last. -/
def gemini_context_parts (load : String → Bool) (message : List Char)
    (history : List ChatMsg) (images : List (String × ImageRecord))
    (csvs : List (String × CsvRecord)) (documents : List (String × DocRecord))
    (ordered_context : List Char) : List GPart :=
  history_block history ++ ordered_block ordered_context ++ csv_block csvs
    ++ doc_block documents ++ image_block load images
    ++ [.text ("\nUser question: ".data ++ message)]

/-! ## Chat endpoint (`backend/api/v1/endpoints/chat.py`, `chat`) -/

/-- Python `xs[s:]` for an arbitrary integer start index. -/
def pySliceFromIdx {α : Type} (s : Int) (xs : List α) : List α :=
  if 0 ≤ s then xs.drop s.toNat else xs.drop (xs.length - (-s).toNat)

/-- Python `xs[-n:]` generalised over the element type (used for
`history[-10:]` and `history[-limit:]` with positive `limit`). -/
def takeLastN {α : Type} (n : Nat) (xs : List α) : List α :=
  xs.drop (xs.length - n)

/-- The state effect of one successful chat turn (`chat.py` lines 17–112).
`load` is the `Image.open` oracle, `complete` the external
`model.generate_content` collaborator, and `t_user`/`t_assistant`/
`t_activity` the three `time.time()` readings.  Note line 36: the session
data for an unknown id is the transient default `{"images": {}, "csvs": {},
"documents": {}}` obtained from `dict.get` — it is never written back —
and the `last_activity` write of lines 94–95 is guarded by
`session_id in sessions`. -/
def chat_endpoint (load : String → Bool) (complete : List GPart → List Char)
    (st : AppState) (sid : String) (user_message : List Char)
    (t_user t_assistant t_activity : Int) : AppState × List Char :=
  let ch0 := match st.chat_history sid with
    | some _ => st.chat_history
    | none => fupdate st.chat_history sid []
  let history := (ch0 sid).getD []
  let kinds := match st.sessions sid with
    | some sd => (sd.images, sd.csvs, sd.documents)
    | none => ([], [], [])
  let history1 := history ++
    [⟨"user", user_message, t_user, some (kinds.1.length, kinds.2.1.length, kinds.2.2.length)⟩]
  let af := sort_files (all_files kinds.1 kinds.2.1 kinds.2.2)
  let oc := ordered_context_str af
  let response := complete
    (gemini_context_parts load user_message (takeLastN 10 history1)
      kinds.1 kinds.2.1 kinds.2.2 oc)
  let history2 := history1 ++ [⟨"assistant", response, t_assistant, none⟩]
  let ch1 := fupdate ch0 sid history2
  let sessions1 := match st.sessions sid with
    | some sd => fupdate st.sessions sid {sd with last_activity := t_activity}
    | none => st.sessions
  (⟨sessions1, ch1⟩, response)

/-- Response shape of `get_chat_history` (`chat.py` lines 133–144). -/
structure HistoryResponse where
  session_id : String
  total_messages : Nat
  messages : List ChatMsg

/-- `get_chat_history`: `messages` is `history[-limit:] if limit else
history` (line 141); `limit` is a Python `int` and defaults to 50. -/
def get_chat_history (st : AppState) (sid : String) (limit : Int) : HistoryResponse :=
  match st.chat_history sid with
  | some history =>
    ⟨sid, history.length, if limit ≠ 0 then pySliceFromIdx (-limit) history else history⟩
  | none => ⟨sid, 0, []⟩

/-! ## Artifact deletion endpoints

`delete_single_image` (`upload_image.py` 166–203), `delete_single_csv`
(`upload_csv.py` 187–217) and `delete_single_document` (`upload_doc.py`
144–170) each remove one record and then clear the session's chat history
when **all three** mappings are empty afterwards.  The bulk deletes
`delete_all_images` (`upload_image.py` 126–163), `delete_all_csvs`
(`upload_csv.py` 154–184) and `delete_all_documents` (`upload_doc.py`
114–141) clear one mapping, test only the **other two** mappings, and
unconditionally report `"history_cleared": True` on the success path.
File-system unlinks are best-effort side effects outside the store and are
modelled as succeeding (they never change the in-memory state). -/

inductive SingleDeleteResult where
  | deleted (file_id : String)
  /-- the endpoint raises `HTTPException(404)` -/
  | notFound
deriving DecidableEq

inductive BulkDeleteResult where
  /-- `{"status": "deleted", "count": …, "history_cleared": True}` -/
  | deleted (count : Nat) (history_cleared : Bool)
  /-- `{"status": "not_found", "count": 0}` (no `history_cleared` key) -/
  | notFound
deriving DecidableEq

def delete_single_image (st : AppState) (sid fid : String) : AppState × SingleDeleteResult :=
  match st.sessions sid with
  | none => (st, .notFound)
  | some sd =>
    if (sd.images.lookup fid).isSome then
      let sd1 := {sd with images := sd.images.filter (fun p => p.1 ≠ fid)}
      let ch1 :=
        if sd1.images.isEmpty ∧ sd1.csvs.isEmpty ∧ sd1.documents.isEmpty then
          fremove st.chat_history sid
        else st.chat_history
      (⟨fupdate st.sessions sid sd1, ch1⟩, .deleted fid)
    else (st, .notFound)

def delete_single_csv (st : AppState) (sid fid : String) : AppState × SingleDeleteResult :=
  match st.sessions sid with
  | none => (st, .notFound)
  | some sd =>
    if (sd.csvs.lookup fid).isSome then
      let sd1 := {sd with csvs := sd.csvs.filter (fun p => p.1 ≠ fid)}
      let ch1 :=
        if sd1.images.isEmpty ∧ sd1.csvs.isEmpty ∧ sd1.documents.isEmpty then
          fremove st.chat_history sid
        else st.chat_history
      (⟨fupdate st.sessions sid sd1, ch1⟩, .deleted fid)
    else (st, .notFound)

def delete_single_document (st : AppState) (sid fid : String) : AppState × SingleDeleteResult :=
  match st.sessions sid with
  | none => (st, .notFound)
  | some sd =>
    if (sd.documents.lookup fid).isSome then
      let sd1 := {sd with documents := sd.documents.filter (fun p => p.1 ≠ fid)}
      let ch1 :=
        if sd1.images.isEmpty ∧ sd1.csvs.isEmpty ∧ sd1.documents.isEmpty then
          fremove st.chat_history sid
        else st.chat_history
      (⟨fupdate st.sessions sid sd1, ch1⟩, .deleted fid)
    else (st, .notFound)

def delete_all_images (st : AppState) (sid : String) : AppState × BulkDeleteResult :=
  match st.sessions sid with
  | none => (st, .notFound)
  | some sd =>
    let deleted_count := sd.images.length
    let sd1 := {sd with images := []}
    let ch1 :=
      if sd1.csvs.isEmpty ∧ sd1.documents.isEmpty then fremove st.chat_history sid
      else st.chat_history
    (⟨fupdate st.sessions sid sd1, ch1⟩, .deleted deleted_count true)

def delete_all_csvs (st : AppState) (sid : String) : AppState × BulkDeleteResult :=
  match st.sessions sid with
  | none => (st, .notFound)
  | some sd =>
    let deleted_count := (sd.csvs.filter (fun p => p.2.path.isSome)).length
    let sd1 := {sd with csvs := []}
    let ch1 :=
      if sd1.images.isEmpty ∧ sd1.documents.isEmpty then fremove st.chat_history sid
      else st.chat_history
    (⟨fupdate st.sessions sid sd1, ch1⟩, .deleted deleted_count true)

def delete_all_documents (st : AppState) (sid : String) : AppState × BulkDeleteResult :=
  match st.sessions sid with
  | none => (st, .notFound)
  | some sd =>
    let deleted_count := sd.documents.length
    let sd1 := {sd with documents := []}
    let ch1 :=
      if sd1.images.isEmpty ∧ sd1.csvs.isEmpty then fremove st.chat_history sid
      else st.chat_history
    (⟨fupdate st.sessions sid sd1, ch1⟩, .deleted deleted_count true)

/-! ## Rate limiter (`backend/middleware/rate_limiter.py`, `RateLimiter.dispatch`)

`self.requests` is a `defaultdict(list)` from client IP to request
timestamps.  `dispatch` first writes back the purged list (entries with
`now - t < 60` survive), then rejects with HTTP 429 — without recording the
request — when the purged count reaches the limit, otherwise appends `now`
and serves the request. -/

structure RLState where
  requests : String → List Int

/-- One `dispatch` call: returns the new state, whether the request was
admitted, and on admission the `X-RateLimit-Remaining` header value. -/
def rl_dispatch (requests_per_minute : Nat) (st : RLState) (ip : String) (now : Int) :
    RLState × Bool × Option Int :=
  let purged := (st.requests ip).filter (fun t => now - t < 60)
  let st1 : RLState := ⟨fun s => if s = ip then purged else st.requests s⟩
  if requests_per_minute ≤ purged.length then
    (st1, false, none)
  else
    let st2 : RLState := ⟨fun s => if s = ip then purged ++ [now] else st1.requests s⟩
    (st2, true, some ((requests_per_minute : Int) - (purged.length + 1)))

/-- Admission decisions for one client issuing requests at the given times. -/
def rl_run (requests_per_minute : Nat) (ip : String) (times : List Int) : List Bool :=
  (times.foldl
    (fun acc t =>
      let r := rl_dispatch requests_per_minute acc.1 ip t
      (r.1, acc.2 ++ [r.2.1]))
    (⟨fun _ => []⟩, [])).2

/-! ## C4 — rate limiter admission -/

/-- C4: admission first purges recorded timestamps `t` with `now - t ≥ 60`
(the purged list is written back), rejects exactly when the remaining count
reaches the limit (recording nothing), and otherwise appends `now` and
accepts; with `limit = 3` and requests at t = 0, 1, 2, 3, 61 the first
three are admitted, the one at t = 3 is rejected, and the one at t = 61 is
admitted. -/
theorem C4_rate_limiter_admission :
    (∀ (limit : Nat) (st : RLState) (ip : String) (now : Int),
      ((rl_dispatch limit st ip now).2.1 = true ↔
        ((st.requests ip).filter (fun t => now - t < 60)).length < limit) ∧
      (rl_dispatch limit st ip now).1.requests ip =
        (st.requests ip).filter (fun t => now - t < 60) ++
          (if ((st.requests ip).filter (fun t => now - t < 60)).length < limit
            then [now] else [])) ∧
    rl_run 3 "client" [0, 1, 2, 3, 61] = [true, true, true, false, true] := by
  refine ⟨fun limit st ip now => ?_, by decide⟩
  by_cases h : limit ≤ ((st.requests ip).filter (fun t => now - t < 60)).length
  · have h2 : ¬ ((st.requests ip).filter (fun t => now - t < 60)).length < limit := by omega
    simp [rl_dispatch, h, h2]
  · have h2 : ((st.requests ip).filter (fun t => now - t < 60)).length < limit := by omega
    simp [rl_dispatch, h, h2]

/-! ## C10 — history-read endpoint limit handling -/

/-- C10: on a session with recorded history, `limit = 0` returns the full
history (the `if limit` guard is false, not an empty slice); a positive
`limit` returns the last `limit` messages — a suffix, in insertion order,
of length `min limit total`. -/
theorem C10_history_read_limit (st : AppState) (sid : String)
    (history : List ChatMsg) (limit : Int)
    (hh : st.chat_history sid = some history) :
    (limit = 0 → (get_chat_history st sid limit).messages = history) ∧
    (0 < limit →
      (get_chat_history st sid limit).messages =
        history.drop (history.length - limit.toNat) ∧
      (get_chat_history st sid limit).messages.length =
        min limit.toNat history.length ∧
      (get_chat_history st sid limit).messages <:+ history) := by
  constructor
  · intro h0
    subst h0
    simp [get_chat_history, hh]
  · intro hpos
    have hne : limit ≠ 0 := by omega
    have hneg : ¬ (0 ≤ -limit) := by omega
    refine ⟨?_, ?_, ?_⟩
    · simp [get_chat_history, hh, hne, pySliceFromIdx, hneg]
    · simp only [get_chat_history, hh, if_pos hne, pySliceFromIdx, if_neg hneg,
        List.length_drop, Int.neg_neg]
      omega
    · simp only [get_chat_history, hh, if_pos hne, pySliceFromIdx, if_neg hneg,
        Int.neg_neg]
      exact List.drop_suffix _ _

/-- A concrete three-message history and app state for witnesses. -/
def histC10 : List ChatMsg :=
  [⟨"user", ['a'], 1, none⟩, ⟨"assistant", ['b'], 2, none⟩, ⟨"user", ['c'], 3, none⟩]

def stC10 : AppState :=
  ⟨fun _ => none, fun s => if s = "sess" then some histC10 else none⟩

/-- Witness for C10 at a concrete three-message history with `limit = 2`
and at `limit = 0`. -/
theorem C10_history_read_limit_witness :
    stC10.chat_history "sess" = some histC10 ∧
    (get_chat_history stC10 "sess" 2).messages =
      histC10.drop (histC10.length - (2 : Int).toNat) ∧
    (get_chat_history stC10 "sess" 0).messages = histC10 := by
  refine ⟨by simp [stC10], ?_, ?_⟩
  · exact ((C10_history_read_limit stC10 "sess" histC10 2 (by simp [stC10])).2
      (by decide)).1
  · exact (C10_history_read_limit stC10 "sess" histC10 0 (by simp [stC10])).1 rfl

/-! ## Unfolding facts for the deletion endpoints -/

theorem delete_all_images_found (st : AppState) (sid : String) (sd : SessionData)
    (hs : st.sessions sid = some sd) :
    delete_all_images st sid =
      (⟨fupdate st.sessions sid {sd with images := []},
        if sd.csvs.isEmpty ∧ sd.documents.isEmpty then fremove st.chat_history sid
        else st.chat_history⟩, .deleted sd.images.length true) := by
  simp only [delete_all_images, hs]

theorem delete_all_csvs_found (st : AppState) (sid : String) (sd : SessionData)
    (hs : st.sessions sid = some sd) :
    delete_all_csvs st sid =
      (⟨fupdate st.sessions sid {sd with csvs := []},
        if sd.images.isEmpty ∧ sd.documents.isEmpty then fremove st.chat_history sid
        else st.chat_history⟩,
       .deleted (sd.csvs.filter (fun p => p.2.path.isSome)).length true) := by
  simp only [delete_all_csvs, hs]

theorem delete_all_documents_found (st : AppState) (sid : String) (sd : SessionData)
    (hs : st.sessions sid = some sd) :
    delete_all_documents st sid =
      (⟨fupdate st.sessions sid {sd with documents := []},
        if sd.images.isEmpty ∧ sd.csvs.isEmpty then fremove st.chat_history sid
        else st.chat_history⟩, .deleted sd.documents.length true) := by
  simp only [delete_all_documents, hs]

theorem delete_single_image_found (st : AppState) (sid fid : String) (sd : SessionData)
    (hs : st.sessions sid = some sd) (hl : (sd.images.lookup fid).isSome) :
    delete_single_image st sid fid =
      (⟨fupdate st.sessions sid {sd with images := sd.images.filter (fun p => p.1 ≠ fid)},
        if (sd.images.filter (fun p => p.1 ≠ fid)).isEmpty ∧ sd.csvs.isEmpty ∧
            sd.documents.isEmpty then
          fremove st.chat_history sid
        else st.chat_history⟩, .deleted fid) := by
  simp only [delete_single_image, hs, if_pos hl]

theorem delete_single_csv_found (st : AppState) (sid fid : String) (sd : SessionData)
    (hs : st.sessions sid = some sd) (hl : (sd.csvs.lookup fid).isSome) :
    delete_single_csv st sid fid =
      (⟨fupdate st.sessions sid {sd with csvs := sd.csvs.filter (fun p => p.1 ≠ fid)},
        if sd.images.isEmpty ∧ (sd.csvs.filter (fun p => p.1 ≠ fid)).isEmpty ∧
            sd.documents.isEmpty then
          fremove st.chat_history sid
        else st.chat_history⟩, .deleted fid) := by
  simp only [delete_single_csv, hs, if_pos hl]

theorem delete_single_document_found (st : AppState) (sid fid : String) (sd : SessionData)
    (hs : st.sessions sid = some sd) (hl : (sd.documents.lookup fid).isSome) :
    delete_single_document st sid fid =
      (⟨fupdate st.sessions sid
          {sd with documents := sd.documents.filter (fun p => p.1 ≠ fid)},
        if sd.images.isEmpty ∧ sd.csvs.isEmpty ∧
            (sd.documents.filter (fun p => p.1 ≠ fid)).isEmpty then
          fremove st.chat_history sid
        else st.chat_history⟩, .deleted fid) := by
  simp only [delete_single_document, hs, if_pos hl]

/-! ## C9 — bulk deletes always report `history_cleared: true` -/

/-- C9: each bulk-delete endpoint on an existing session answers with the
literal `"history_cleared": True` regardless of whether it cleared
anything; when artifacts of the other two kinds remain, the stored chat
history is untouched while the response still says `true`. -/
theorem C9_bulk_delete_always_reports_cleared (st : AppState) (sid : String)
    (sd : SessionData) (hs : st.sessions sid = some sd) :
    ((delete_all_images st sid).2 = .deleted sd.images.length true ∧
      (¬ (sd.csvs.isEmpty ∧ sd.documents.isEmpty) →
        (delete_all_images st sid).1.chat_history = st.chat_history)) ∧
    ((delete_all_csvs st sid).2 =
        .deleted (sd.csvs.filter (fun p => p.2.path.isSome)).length true ∧
      (¬ (sd.images.isEmpty ∧ sd.documents.isEmpty) →
        (delete_all_csvs st sid).1.chat_history = st.chat_history)) ∧
    ((delete_all_documents st sid).2 = .deleted sd.documents.length true ∧
      (¬ (sd.images.isEmpty ∧ sd.csvs.isEmpty) →
        (delete_all_documents st sid).1.chat_history = st.chat_history)) := by
  rw [delete_all_images_found st sid sd hs, delete_all_csvs_found st sid sd hs,
    delete_all_documents_found st sid sd hs]
  exact ⟨⟨rfl, fun hne => by rw [if_neg hne]⟩, ⟨rfl, fun hne => by rw [if_neg hne]⟩,
    ⟨rfl, fun hne => by rw [if_neg hne]⟩⟩

/-- A session holding one image, one CSV and no documents, with a nonempty
chat history, for the C9 witness. -/
def sdC9 : SessionData :=
  ⟨[("im1", ⟨"p.png", none, "a.png", 1⟩)],
   [("cs1", ⟨some "p.csv", "b.csv", (2, 2), ["x", "y"], [], [], 2⟩)], [], 0, 2⟩

def stC9 : AppState :=
  ⟨fun s => if s = "sess" then some sdC9 else none,
   fun s => if s = "sess" then some [⟨"user", ['h'], 3, none⟩] else none⟩

/-- Witness for C9: deleting all images while a CSV remains answers
`history_cleared: true` yet the stored history survives. -/
theorem C9_bulk_delete_always_reports_cleared_witness :
    stC9.sessions "sess" = some sdC9 ∧
    (delete_all_images stC9 "sess").2 = .deleted 1 true ∧
    (delete_all_images stC9 "sess").1.chat_history = stC9.chat_history := by
  have h := C9_bulk_delete_always_reports_cleared stC9 "sess" sdC9 (by simp [stC9])
  exact ⟨by simp [stC9], h.1.1, h.1.2 (by simp [sdC9])⟩

/-! ## C1 — single-artifact deletion cascade -/

/-- C1: deleting one image, CSV or document checks, on the post-deletion
mappings, whether all three kinds are empty; if so the session's chat
history is cleared, and otherwise the chat-history dict is left entirely
unchanged. -/
theorem C1_single_delete_cascade (st : AppState) (sid fid : String)
    (sd : SessionData) (hs : st.sessions sid = some sd) :
    ((sd.images.lookup fid).isSome →
      (delete_single_image st sid fid).2 = .deleted fid ∧
      (((sd.images.filter (fun p => p.1 ≠ fid)).isEmpty ∧ sd.csvs.isEmpty ∧
          sd.documents.isEmpty) →
        (delete_single_image st sid fid).1.chat_history sid = none) ∧
      (¬ ((sd.images.filter (fun p => p.1 ≠ fid)).isEmpty ∧ sd.csvs.isEmpty ∧
          sd.documents.isEmpty) →
        (delete_single_image st sid fid).1.chat_history = st.chat_history)) ∧
    ((sd.csvs.lookup fid).isSome →
      (delete_single_csv st sid fid).2 = .deleted fid ∧
      ((sd.images.isEmpty ∧ (sd.csvs.filter (fun p => p.1 ≠ fid)).isEmpty ∧
          sd.documents.isEmpty) →
        (delete_single_csv st sid fid).1.chat_history sid = none) ∧
      (¬ (sd.images.isEmpty ∧ (sd.csvs.filter (fun p => p.1 ≠ fid)).isEmpty ∧
          sd.documents.isEmpty) →
        (delete_single_csv st sid fid).1.chat_history = st.chat_history)) ∧
    ((sd.documents.lookup fid).isSome →
      (delete_single_document st sid fid).2 = .deleted fid ∧
      ((sd.images.isEmpty ∧ sd.csvs.isEmpty ∧
          (sd.documents.filter (fun p => p.1 ≠ fid)).isEmpty) →
        (delete_single_document st sid fid).1.chat_history sid = none) ∧
      (¬ (sd.images.isEmpty ∧ sd.csvs.isEmpty ∧
          (sd.documents.filter (fun p => p.1 ≠ fid)).isEmpty) →
        (delete_single_document st sid fid).1.chat_history = st.chat_history)) := by
  refine ⟨fun hl => ?_, fun hl => ?_, fun hl => ?_⟩
  · rw [delete_single_image_found st sid fid sd hs hl]
    exact ⟨rfl, fun he => by rw [if_pos he]; simp [fremove],
      fun he => by rw [if_neg he]⟩
  · rw [delete_single_csv_found st sid fid sd hs hl]
    exact ⟨rfl, fun he => by rw [if_pos he]; simp [fremove],
      fun he => by rw [if_neg he]⟩
  · rw [delete_single_document_found st sid fid sd hs hl]
    exact ⟨rfl, fun he => by rw [if_pos he]; simp [fremove],
      fun he => by rw [if_neg he]⟩

/-- A session whose only artifact is a single document, with chat history
present, plus a second session where an image remains. -/
def sdOnlyDoc : SessionData :=
  ⟨[], [], [("d1", ⟨"p.txt", "t.txt", ['x'], 1⟩)], 0, 1⟩

def sdDocAndImage : SessionData :=
  ⟨[("im1", ⟨"q.png", none, "a.png", 1⟩)], [],
   [("d2", ⟨"r.txt", "u.txt", ['y'], 2⟩)], 0, 2⟩

def stC1 : AppState :=
  ⟨fun s =>
      if s = "only" then some sdOnlyDoc
      else if s = "more" then some sdDocAndImage
      else none,
   fun s => if s = "only" ∨ s = "more" then some [⟨"user", ['h'], 3, none⟩] else none⟩

/-- Witness for C1: removing the last remaining artifact clears the
history; removing a document while an image remains leaves it unchanged. -/
theorem C1_single_delete_cascade_witness :
    (delete_single_document stC1 "only" "d1").2 = .deleted "d1" ∧
    (delete_single_document stC1 "only" "d1").1.chat_history "only" = none ∧
    (delete_single_document stC1 "more" "d2").1.chat_history = stC1.chat_history := by
  have h1 := (C1_single_delete_cascade stC1 "only" "d1" sdOnlyDoc
    (by simp [stC1])).2.2 (by simp [sdOnlyDoc])
  have h2 := (C1_single_delete_cascade stC1 "more" "d2" sdDocAndImage
    (by simp [stC1])).2.2 (by simp [sdDocAndImage])
  exact ⟨h1.1, h1.2.1 (by simp [sdOnlyDoc]), h2.2.2 (by simp [sdDocAndImage])⟩

/-! ## C5 — lazy session creation and the chat endpoint -/

/-- Counterexample to C5: a chat call with a session id unknown to the
session store does **not** create the session — `chat.py` line 36 reads the
transient default from `dict.get` without writing it back, and the
`last_activity` update of lines 94–95 is guarded by membership.  After the
call the sessions dict still has no entry for the id, even though the chat
history entry was created. -/
theorem C5_counterexample :
    (chat_endpoint (fun _ => true) (fun _ => "ok".data)
        ⟨fun _ => none, fun _ => none⟩ "s1" "hi".data 1 2 3).1.sessions "s1" = none ∧
    (chat_endpoint (fun _ => true) (fun _ => "ok".data)
        ⟨fun _ => none, fun _ => none⟩ "s1" "hi".data 1 2 3).1.chat_history "s1" ≠
      none := by
  constructor
  · rfl
  · simp [chat_endpoint, fupdate]

/-- C5 as amended: a chat call referencing a session id absent from the
session store leaves the sessions dict entirely unchanged (no session is
created; only upload endpoints create sessions) while still creating the
chat-history entry for the id; the `lastActivity` update happens only when
the session already exists, in which case the chat call does set it. -/
theorem C5_amended_chat_session_lifecycle (load : String → Bool)
    (complete : List GPart → List Char) (st : AppState) (sid : String)
    (msg : List Char) (t1 t2 t3 : Int) :
    (st.sessions sid = none →
      (chat_endpoint load complete st sid msg t1 t2 t3).1.sessions = st.sessions ∧
      (chat_endpoint load complete st sid msg t1 t2 t3).1.chat_history sid ≠ none) ∧
    (∀ sd, st.sessions sid = some sd →
      (chat_endpoint load complete st sid msg t1 t2 t3).1.sessions sid =
        some {sd with last_activity := t3}) := by
  constructor
  · intro hnone
    constructor
    · simp [chat_endpoint, hnone]
    · simp [chat_endpoint, fupdate]
  · intro sd hsd
    simp [chat_endpoint, hsd, fupdate]

/-- Witness for C5 as amended: both branches at concrete states. -/
theorem C5_amended_chat_session_lifecycle_witness :
    (chat_endpoint (fun _ => true) (fun _ => "ok".data)
        ⟨fun _ => none, fun _ => none⟩ "s2" "hi".data 1 2 3).1.sessions =
      (⟨fun _ => none, fun _ => none⟩ : AppState).sessions ∧
    (chat_endpoint (fun _ => true) (fun _ => "ok".data) stC9 "sess" "hi".data
        1 2 3).1.sessions "sess" = some {sdC9 with last_activity := 3} := by
  constructor
  · exact ((C5_amended_chat_session_lifecycle (fun _ => true) (fun _ => "ok".data)
      ⟨fun _ => none, fun _ => none⟩ "s2" "hi".data 1 2 3).1 rfl).1
  · exact (C5_amended_chat_session_lifecycle (fun _ => true) (fun _ => "ok".data)
      stC9 "sess" "hi".data 1 2 3).2 sdC9 (by simp [stC9])

/-! ## C2 — ordered file index -/

/-- Inserting keeps the same multiset of descriptors. -/
theorem insert_by_uploaded_at_perm (f : FileDesc) (l : List FileDesc) :
    (insert_by_uploaded_at f l).Perm (f :: l) := by
  induction l with
  | nil => simp [insert_by_uploaded_at]
  | cons g gs ih =>
    by_cases h : f.uploaded_at ≤ g.uploaded_at
    · simp [insert_by_uploaded_at, h]
    · simp only [insert_by_uploaded_at, if_neg h]
      exact (ih.cons g).trans (List.Perm.swap f g gs)

theorem sort_files_perm (l : List FileDesc) : (sort_files l).Perm l := by
  induction l with
  | nil => simp [sort_files]
  | cons f fs ih =>
    exact (insert_by_uploaded_at_perm f (sort_files fs)).trans (ih.cons f)

theorem insert_by_uploaded_at_pairwise (f : FileDesc) (l : List FileDesc)
    (hl : List.Pairwise (fun a b => a.uploaded_at ≤ b.uploaded_at) l) :
    List.Pairwise (fun a b => a.uploaded_at ≤ b.uploaded_at)
      (insert_by_uploaded_at f l) := by
  induction l with
  | nil => simp [insert_by_uploaded_at]
  | cons g gs ih =>
    rcases List.pairwise_cons.mp hl with ⟨hg, hgs⟩
    by_cases h : f.uploaded_at ≤ g.uploaded_at
    · rw [insert_by_uploaded_at, if_pos h]
      refine List.pairwise_cons.mpr ⟨?_, hl⟩
      intro x hx
      rcases List.mem_cons.mp hx with rfl | hx
      · exact h
      · exact le_trans h (hg x hx)
    · rw [insert_by_uploaded_at, if_neg h]
      refine List.pairwise_cons.mpr ⟨?_, ih hgs⟩
      intro x hx
      have hx2 : x ∈ f :: gs := (insert_by_uploaded_at_perm f gs).mem_iff.mp hx
      rcases List.mem_cons.mp hx2 with rfl | hx2
      · exact le_of_not_le h
      · exact hg x hx2

theorem sort_files_pairwise (l : List FileDesc) :
    List.Pairwise (fun a b => a.uploaded_at ≤ b.uploaded_at) (sort_files l) := by
  induction l with
  | nil => simp [sort_files]
  | cons f fs ih => exact insert_by_uploaded_at_pairwise f (sort_files fs) ih

/-- Where an insertion lands among the elements sharing one `uploaded_at`
value: a later element with an equal key is placed after every element with
that key already present, so the filtered-by-key subsequence gains the new
element at the front exactly when its key matches. -/
theorem insert_by_uploaded_at_filter (f : FileDesc) (l : List FileDesc) (k : Int) :
    (insert_by_uploaded_at f l).filter (fun g => decide (g.uploaded_at = k)) =
      if f.uploaded_at = k then
        f :: l.filter (fun g => decide (g.uploaded_at = k))
      else l.filter (fun g => decide (g.uploaded_at = k)) := by
  induction l with
  | nil =>
    by_cases hk : f.uploaded_at = k <;> simp [insert_by_uploaded_at, hk]
  | cons g gs ih =>
    by_cases h : f.uploaded_at ≤ g.uploaded_at
    · rw [insert_by_uploaded_at, if_pos h, List.filter_cons, List.filter_cons]
      by_cases hk : f.uploaded_at = k <;> simp [List.filter_cons, hk]
    · rw [insert_by_uploaded_at, if_neg h, List.filter_cons, ih]
      by_cases hk : f.uploaded_at = k
      · have hgk : ¬ (g.uploaded_at = k) := fun hg => h (le_of_eq (hk.trans hg.symm))
        simp [List.filter_cons, hgk, hk]
      · by_cases hgk : g.uploaded_at = k <;> simp [List.filter_cons, hgk, hk]

/-- Python's sort is stable: for each timestamp value, the descriptors
carrying it keep their traversal order (images, then CSVs, then documents,
in insertion order within each kind). -/
theorem sort_files_filter (l : List FileDesc) (k : Int) :
    (sort_files l).filter (fun g => decide (g.uploaded_at = k)) =
      l.filter (fun g => decide (g.uploaded_at = k)) := by
  induction l with
  | nil => simp [sort_files]
  | cons f fs ih =>
    rw [sort_files, insert_by_uploaded_at_filter, List.filter_cons]
    by_cases hk : f.uploaded_at = k <;> simp [hk, ih]

theorem ordered_context_lines_get (fs : List FileDesc) (i : Nat) (f : FileDesc)
    (hf : fs.get? i = some f) :
    (ordered_context_lines fs).get? i = some (ordered_context_line (i, f)) := by
  have hf2 : fs[i]? = some f := by rw [← List.get?_eq_getElem?]; exact hf
  simp [ordered_context_lines, List.get?_eq_getElem?, List.getElem?_map,
    List.getElem?_enum, hf2]

/-- Two documents sharing one upload timestamp, with ids chosen so that the
id order disagrees with the insertion order. -/
def docTieA : DocRecord := ⟨"pa", "A.txt", [], 5⟩
def docTieB : DocRecord := ⟨"pb", "B.txt", [], 5⟩

/-- Counterexample to C2: `all_files.sort(key=lambda f: f["uploaded_at"])`
sorts by `uploaded_at` only.  With two documents tied at `uploaded_at = 5`,
inserted as id "b" then id "a", the stable sort keeps "b" first — the tie
is **not** broken by artifact id — and reversing the insertion order of the
same two mappings changes the rendered index, so the output is **not**
independent of insertion order. -/
theorem C2_counterexample :
    List.Perm
      (all_files [] [] [("b", docTieB), ("a", docTieA)])
      (all_files [] [] [("a", docTieA), ("b", docTieB)]) ∧
    sort_files (all_files [] [] [("b", docTieB), ("a", docTieA)]) =
      [⟨"documents", "b", "B.txt", 5⟩, ⟨"documents", "a", "A.txt", 5⟩] ∧
    ordered_context_str (sort_files (all_files [] [] [("b", docTieB), ("a", docTieA)])) ≠
      ordered_context_str (sort_files (all_files [] [] [("a", docTieA), ("b", docTieB)])) := by
  refine ⟨by decide, by decide, by decide⟩

/-- C2 as amended: the index covers all artifacts of the three kinds in one
sequence sorted by `uploaded_at` ascending, but ties keep the traversal
order — images, then CSVs, then documents, insertion order within a kind
(Python's sort is stable and uses no id tie-break) — so the order is a
function of insertion order, not of the mappings' contents alone; each
index line is the 1-based `"[i] KIND → filename"` with the kind name
uppercased. -/
theorem C2_amended_ordered_index (images : List (String × ImageRecord))
    (csvs : List (String × CsvRecord)) (documents : List (String × DocRecord)) :
    (sort_files (all_files images csvs documents)).Perm
      (all_files images csvs documents) ∧
    List.Pairwise (fun a b => a.uploaded_at ≤ b.uploaded_at)
      (sort_files (all_files images csvs documents)) ∧
    (∀ k : Int,
      (sort_files (all_files images csvs documents)).filter
          (fun g => decide (g.uploaded_at = k)) =
        (all_files images csvs documents).filter
          (fun g => decide (g.uploaded_at = k))) ∧
    (∀ (i : Nat) (f : FileDesc),
      (sort_files (all_files images csvs documents)).get? i = some f →
      (ordered_context_lines (sort_files (all_files images csvs documents))).get? i
        = some (ordered_context_line (i, f))) :=
  ⟨sort_files_perm _, sort_files_pairwise _, fun k => sort_files_filter _ k,
    fun i f hf => ordered_context_lines_get _ i f hf⟩

/-- Witness for C2 as amended at a mixed concrete session: one image at
t = 3, one CSV at t = 1, one document at t = 2. -/
theorem C2_amended_ordered_index_witness :
    (sort_files (all_files [("i1", ⟨"p.png", none, "img.png", 3⟩)]
        [("c1", ⟨some "p.csv", "t.csv", (1, 1), ["x"], [], [], 1⟩)]
        [("d1", ⟨"p.txt", "d.txt", [], 2⟩)])).Perm
      (all_files [("i1", ⟨"p.png", none, "img.png", 3⟩)]
        [("c1", ⟨some "p.csv", "t.csv", (1, 1), ["x"], [], [], 1⟩)]
        [("d1", ⟨"p.txt", "d.txt", [], 2⟩)]) ∧
    (ordered_context_lines (sort_files (all_files [("i1", ⟨"p.png", none, "img.png", 3⟩)]
        [("c1", ⟨some "p.csv", "t.csv", (1, 1), ["x"], [], [], 1⟩)]
        [("d1", ⟨"p.txt", "d.txt", [], 2⟩)]))).get? 0 =
      some (ordered_context_line (0, ⟨"csvs", "c1", "t.csv", 1⟩)) := by
  refine ⟨(C2_amended_ordered_index _ _ _).1, ?_⟩
  exact (C2_amended_ordered_index [("i1", ⟨"p.png", none, "img.png", 3⟩)]
    [("c1", ⟨some "p.csv", "t.csv", (1, 1), ["x"], [], [], 1⟩)]
    [("d1", ⟨"p.txt", "d.txt", [], 2⟩)]).2.2.2 0 ⟨"csvs", "c1", "t.csv", 1⟩ (by decide)

/-! ## C8 — image load failure degrades to a placeholder -/

/-- Counterexample to C8's quoted placeholder: the code writes
`f"[Failed to load image: {filename}]"` (capital F, `gemini_service.py`
line 119), not `"[failed to load image: ...]"`: with one image whose
backing file fails to load, the parts contain the former and not the
latter. -/
theorem C8_counterexample :
    GPart.text "[Failed to load image: img.png]".data ∈
      gemini_context_parts (fun _ => false) "q".data []
        [("i1", ⟨"p.png", none, "img.png", 0⟩)] [] [] [] ∧
    GPart.text "[failed to load image: img.png]".data ∉
      gemini_context_parts (fun _ => false) "q".data []
        [("i1", ⟨"p.png", none, "img.png", 0⟩)] [] [] [] := by
  refine ⟨by decide, by decide⟩

/-- C8 as amended: a failing image load never aborts context assembly —
the engine appends the placeholder `"[Failed to load image: <filename>]"`
(capital F) for every failed image, still emits the loaded-image entry and
caption for every image that loads, and the final part is always the new
user message. -/
theorem C8_amended_image_failure_placeholder (load : String → Bool)
    (message : List Char) (history : List ChatMsg)
    (images : List (String × ImageRecord)) (csvs : List (String × CsvRecord))
    (documents : List (String × DocRecord)) (oc : List Char) :
    (gemini_context_parts load message history images csvs documents oc).getLast? =
      some (.text ("\nUser question: ".data ++ message)) ∧
    (∀ p ∈ images, load (image_source_path p.2) = false →
      GPart.text (("[Failed to load image: " ++ p.2.filename ++ "]").data) ∈
        gemini_context_parts load message history images csvs documents oc) ∧
    (∀ p ∈ images, load (image_source_path p.2) = true →
      GPart.image (image_source_path p.2) ∈
        gemini_context_parts load message history images csvs documents oc ∧
      GPart.text (("[Image: " ++ p.2.filename ++ " (file_id: " ++ p.1 ++ ")]").data) ∈
        gemini_context_parts load message history images csvs documents oc) := by
  refine ⟨?_, ?_, ?_⟩
  · unfold gemini_context_parts
    exact List.getLast?_concat _
  · intro p hp hfail
    unfold gemini_context_parts
    refine List.mem_append.mpr (.inl (List.mem_append.mpr (.inr ?_)))
    unfold image_block
    refine List.mem_append.mpr (.inl ?_)
    refine List.mem_flatMap.mpr ⟨p, hp, ?_⟩
    rw [hfail]
    simp
  · intro p hp hok
    constructor
    · unfold gemini_context_parts
      refine List.mem_append.mpr (.inl (List.mem_append.mpr (.inr ?_)))
      unfold image_block
      refine List.mem_append.mpr (.inl ?_)
      refine List.mem_flatMap.mpr ⟨p, hp, ?_⟩
      rw [hok]
      simp
    · unfold gemini_context_parts
      refine List.mem_append.mpr (.inl (List.mem_append.mpr (.inr ?_)))
      unfold image_block
      refine List.mem_append.mpr (.inl ?_)
      refine List.mem_flatMap.mpr ⟨p, hp, ?_⟩
      rw [hok]
      simp

/-- Witness for C8 as amended: two images, one failing and one loading,
with the user message still last. -/
theorem C8_amended_image_failure_placeholder_witness :
    (gemini_context_parts (fun s => s = "ok.png") "q".data []
        [("i1", ⟨"bad.png", none, "bad.png", 0⟩), ("i2", ⟨"ok.png", none, "ok.png", 1⟩)]
        [] [] []).getLast? = some (.text ("\nUser question: ".data ++ "q".data)) ∧
    GPart.text (("[Failed to load image: " ++ "bad.png" ++ "]").data) ∈
      gemini_context_parts (fun s => s = "ok.png") "q".data []
        [("i1", ⟨"bad.png", none, "bad.png", 0⟩), ("i2", ⟨"ok.png", none, "ok.png", 1⟩)]
        [] [] [] ∧
    GPart.image "ok.png" ∈
      gemini_context_parts (fun s => s = "ok.png") "q".data []
        [("i1", ⟨"bad.png", none, "bad.png", 0⟩), ("i2", ⟨"ok.png", none, "ok.png", 1⟩)]
        [] [] [] := by
  have h := C8_amended_image_failure_placeholder (fun s => s = "ok.png") "q".data []
    [("i1", ⟨"bad.png", none, "bad.png", 0⟩), ("i2", ⟨"ok.png", none, "ok.png", 1⟩)]
    [] [] []
  refine ⟨h.1, h.2.1 ("i1", ⟨"bad.png", none, "bad.png", 0⟩) (by decide) (by decide), ?_⟩
  have h2 := h.2.2 ("i2", ⟨"ok.png", none, "ok.png", 1⟩) (by decide) (by decide)
  exact h2.1

/-! ## C3 — document truncation policy -/

/-- A 20000-character document, as in the spec's worked example. -/
def bigDocText : List Char := List.replicate 20000 'a'

def bigDoc : DocRecord := ⟨"p", "big.txt", bigDocText, 0⟩

/-- What the per-document cap makes of a 20000-character text: 15000
characters plus the per-document truncation marker (25 characters, so the
loop accounts 15025 characters for it). -/
def bigBody : List Char := List.replicate 15000 'a' ++ docTruncatedMark

theorem truncated_bigDocText : truncated_doc_text bigDocText = bigBody := by
  rw [truncated_doc_text, bigDocText, bigBody, List.take_replicate]
  norm_num [max_chars_per_doc]

theorem bigBody_length : bigBody.length = 15025 := by
  rw [bigBody, List.length_append, List.length_replicate]
  rfl

/-- Counterexample to C3: the running total counts the **truncated** texts
(marker included), so three 20000-character documents contribute
3 × 15025 = 45075 ≤ 50000 characters — the global cap is never hit, all
three documents are emitted in full truncated form, and no
`"[Remaining documents truncated...]"` marker appears anywhere (in
particular not at the end of the document context). -/
theorem C3_counterexample :
    doc_loop [("d1", bigDoc), ("d2", bigDoc), ("d3", bigDoc)] 0 =
      [(doc_header "d1" "big.txt", bigBody), (doc_header "d2" "big.txt", bigBody),
       (doc_header "d3" "big.txt", bigBody)] ∧
    (doc_context_items [("d1", bigDoc), ("d2", bigDoc), ("d3", bigDoc)]).getLast? =
      some bigBody ∧
    ¬ remainingDocsMark <:+ bigBody := by
  have hloop : doc_loop [("d1", bigDoc), ("d2", bigDoc), ("d3", bigDoc)] 0 =
      [(doc_header "d1" "big.txt", bigBody), (doc_header "d2" "big.txt", bigBody),
       (doc_header "d3" "big.txt", bigBody)] := by
    rw [doc_loop, show bigDoc.text = bigDocText from rfl, truncated_bigDocText,
      bigBody_length]
    have h1 : ¬ (max_total_chars < 0 + 15025) := by norm_num [max_total_chars]
    rw [if_neg h1, doc_loop, show bigDoc.text = bigDocText from rfl,
      truncated_bigDocText, bigBody_length]
    have h2 : ¬ (max_total_chars < 0 + 15025 + 15025) := by norm_num [max_total_chars]
    rw [if_neg h2, doc_loop, show bigDoc.text = bigDocText from rfl,
      truncated_bigDocText, bigBody_length]
    have h3 : ¬ (max_total_chars < 0 + 15025 + 15025 + 15025) := by
      norm_num [max_total_chars]
    rw [if_neg h3, doc_loop]
    rfl
  refine ⟨hloop, ?_, ?_⟩
  · rw [doc_context_items, hloop]
    rfl
  · intro hsuf
    obtain ⟨s, hs⟩ := hsuf
    have hlen : s.length + remainingDocsMark.length = bigBody.length := by
      rw [← List.length_append, hs]
    have hm : remainingDocsMark.length = 36 := by decide
    have hslen : s.length = 14989 := by
      rw [bigBody_length] at hlen
      omega
    have hdrop := congrArg (List.drop 14989) hs
    have hleft : List.drop 14989 (s ++ remainingDocsMark) = remainingDocsMark := by
      rw [List.drop_append_eq_append_drop, ← hslen, List.drop_length, Nat.sub_self,
        List.drop_zero, List.nil_append]
    have hright : List.drop 14989 bigBody =
        List.replicate 11 'a' ++ docTruncatedMark := by
      rw [bigBody, List.drop_append_eq_append_drop, List.drop_replicate,
        List.length_replicate]
      norm_num
    rw [hleft, hright] at hdrop
    exact absurd hdrop (by decide)

/-- Sum of the lengths of the document bodies the loop emits (the
quantities `total_chars` accumulates). -/
def bodies_total (prs : List (List Char × List Char)) : Nat :=
  (prs.map (fun p => p.2.length)).sum

/-- C3 as amended: each document is truncated to the 15000-character cap
with a marker appended exactly when cut; the loop walks the store in order
accumulating the lengths of the **truncated** texts (markers included) and
stops — emitting a partial document ending in
`"[Remaining documents truncated...]"` only when the remaining budget
strictly exceeds 1000 characters, and nothing otherwise — as soon as a
truncated text would push the total over 50000.  Hence the total document
text is bounded by 50000 + 36 characters, three 20000-character documents
fit entirely (3 × 15025 ≤ 50000, no trailing marker), and a fourth such
document triggers the partial-document-plus-marker behaviour. -/
theorem C3_amended_doc_truncation :
    (∀ text : List Char,
      (truncated_doc_text text).length ≤ max_chars_per_doc + docTruncatedMark.length ∧
      (text.length ≤ max_chars_per_doc → truncated_doc_text text = text) ∧
      (max_chars_per_doc < text.length →
        truncated_doc_text text = text.take max_chars_per_doc ++ docTruncatedMark)) ∧
    (∀ (docs : List (String × DocRecord)) (total : Nat), total ≤ max_total_chars →
      total + bodies_total (doc_loop docs total) ≤
        max_total_chars + remainingDocsMark.length) ∧
    doc_loop [("d1", bigDoc), ("d2", bigDoc), ("d3", bigDoc), ("d4", bigDoc)] 0 =
      [(doc_header "d1" "big.txt", bigBody), (doc_header "d2" "big.txt", bigBody),
       (doc_header "d3" "big.txt", bigBody),
       (doc_header "d4" "big.txt",
        List.replicate 4925 'a' ++ remainingDocsMark)] := by
  refine ⟨?_, ?_, ?_⟩
  · intro text
    refine ⟨?_, ?_, ?_⟩
    · rw [truncated_doc_text]
      by_cases h : max_chars_per_doc < text.length
      · rw [if_pos h, List.length_append, List.length_take]
        omega
      · rw [if_neg h, List.length_append, List.length_take]
        simp
    · intro h
      have h2 : ¬ max_chars_per_doc < text.length := by omega
      rw [truncated_doc_text, if_neg h2, List.take_of_length_le h, List.append_nil]
    · intro h
      rw [truncated_doc_text, if_pos h]
  · intro docs total h
    induction docs generalizing total with
    | nil =>
      simp [doc_loop, bodies_total]
      omega
    | cons pr rest ih =>
      obtain ⟨fid, d⟩ := pr
      simp only [doc_loop]
      by_cases hb : max_total_chars < total + (truncated_doc_text d.text).length
      · rw [if_pos hb]
        by_cases hr : 1000 < max_total_chars - total
        · rw [if_pos hr]
          have hk : ((truncated_doc_text d.text).take (max_total_chars - total)).length
              ≤ max_total_chars - total := by
            rw [List.length_take]
            omega
          simp only [bodies_total, List.map_cons, List.map_nil, List.sum_cons,
            List.sum_nil, List.length_append]
          omega
        · rw [if_neg hr]
          simp [bodies_total]
          omega
      · rw [if_neg hb]
        have h2 : total + (truncated_doc_text d.text).length ≤ max_total_chars := by
          omega
        have h3 := ih (total + (truncated_doc_text d.text).length) h2
        simp only [bodies_total, List.map_cons, List.sum_cons] at h3 ⊢
        omega
  · have hTake : bigBody.take 4925 = List.replicate 4925 'a' := by
      rw [bigBody, List.take_append_eq_append_take, List.take_replicate,
        List.length_replicate]
      norm_num
    rw [doc_loop, show bigDoc.text = bigDocText from rfl, truncated_bigDocText,
      bigBody_length]
    have h1 : ¬ (max_total_chars < 0 + 15025) := by norm_num [max_total_chars]
    rw [if_neg h1, doc_loop, show bigDoc.text = bigDocText from rfl,
      truncated_bigDocText, bigBody_length]
    have h2 : ¬ (max_total_chars < 0 + 15025 + 15025) := by norm_num [max_total_chars]
    rw [if_neg h2, doc_loop, show bigDoc.text = bigDocText from rfl,
      truncated_bigDocText, bigBody_length]
    have h3 : ¬ (max_total_chars < 0 + 15025 + 15025 + 15025) := by
      norm_num [max_total_chars]
    rw [if_neg h3, doc_loop, show bigDoc.text = bigDocText from rfl,
      truncated_bigDocText, bigBody_length]
    have h4 : max_total_chars < 0 + 15025 + 15025 + 15025 + 15025 := by
      norm_num [max_total_chars]
    rw [if_pos h4]
    have h5 : 1000 < max_total_chars - (0 + 15025 + 15025 + 15025) := by
      norm_num [max_total_chars]
    rw [if_pos h5]
    have h6 : max_total_chars - (0 + 15025 + 15025 + 15025) = 4925 := by
      norm_num [max_total_chars]
    rw [h6, hTake]
    rfl

/-- Witness for C3 as amended at concrete inputs: a short text is left
untouched, the 20000-character text is cut at 15000, and the budget bound
holds for one 20000-character document starting from an empty total. -/
theorem C3_amended_doc_truncation_witness :
    truncated_doc_text ['h', 'i'] = ['h', 'i'] ∧
    truncated_doc_text bigDocText = bigDocText.take max_chars_per_doc ++ docTruncatedMark ∧
    0 + bodies_total (doc_loop [("d1", bigDoc)] 0) ≤
      max_total_chars + remainingDocsMark.length := by
  refine ⟨?_, ?_, ?_⟩
  · exact (C3_amended_doc_truncation.1 ['h', 'i']).2.1 (by decide)
  · exact (C3_amended_doc_truncation.1 bigDocText).2.2 (by
      rw [bigDocText, List.length_replicate]
      norm_num [max_chars_per_doc])
  · exact C3_amended_doc_truncation.2.1 [("d1", bigDoc)] 0 (by norm_num [max_total_chars])

/-! ## TextChunker lemmas shared by the splitter claims -/

theorem pyStrip_length_le (l : List Char) : (pyStrip l).length ≤ l.length := by
  rw [pyStrip, List.length_reverse]
  calc (((l.dropWhile Char.isWhitespace).reverse.dropWhile Char.isWhitespace)).length
      ≤ (l.dropWhile Char.isWhitespace).reverse.length :=
        (List.dropWhile_sublist _).length_le
    _ = (l.dropWhile Char.isWhitespace).length := List.length_reverse _
    _ ≤ l.length := (List.dropWhile_sublist _).length_le

theorem filter_dropWhile (keep p : Char → Bool)
    (hp : ∀ c, p c = true → keep c = false) (l : List Char) :
    (l.dropWhile p).filter keep = l.filter keep := by
  induction l with
  | nil => rfl
  | cons c cs ih =>
    by_cases hc : p c
    · rw [List.dropWhile_cons_of_pos hc, ih, List.filter_cons, hp c hc]
      simp
    · rw [List.dropWhile_cons_of_neg hc]

/-- `str.strip()` only removes whitespace, so any filter discarding
whitespace does not see it. -/
theorem filter_pyStrip (keep : Char → Bool)
    (hws : ∀ c, c.isWhitespace = true → keep c = false) (l : List Char) :
    (pyStrip l).filter keep = l.filter keep := by
  rw [pyStrip, List.filter_reverse, filter_dropWhile keep _ hws,
    List.filter_reverse, List.reverse_reverse, filter_dropWhile keep _ hws]

theorem joinWith_cons_of_ne_nil (sep x : List Char) (xs : List (List Char))
    (hxs : xs ≠ []) : joinWith sep (x :: xs) = x ++ sep ++ joinWith sep xs := by
  cases xs with
  | nil => exact absurd rfl hxs
  | cons y ys => rfl

/-- Joining with a separator whose characters a filter discards is the same
as flattening, up to that filter. -/
theorem filter_joinWith (keep : Char → Bool) (sep : List Char)
    (hsep : sep.filter keep = []) (parts : List (List Char)) :
    (joinWith sep parts).filter keep = parts.flatten.filter keep := by
  induction parts with
  | nil => rfl
  | cons x xs ih =>
    cases xs with
    | nil => simp [joinWith]
    | cons y ys =>
      rw [joinWith_cons_of_ne_nil sep x (y :: ys) (by simp), List.flatten_cons,
        List.filter_append, List.filter_append, List.filter_append, hsep, ih]
      simp

theorem pySplitGo_zero (sep text acc : List Char) :
    pySplitGo sep 0 text acc = [acc.reverse ++ text] := rfl

theorem pySplitGo_succ (sep : List Char) (fuel : Nat) (text acc : List Char) :
    pySplitGo sep (fuel + 1) text acc =
      if sep ≠ [] ∧ sep <+: text then
        acc.reverse :: pySplitGo sep fuel (text.drop sep.length) []
      else
        match text with
        | [] => [acc.reverse]
        | c :: rest => pySplitGo sep fuel rest (c :: acc) := rfl

theorem pySplitGo_ne_nil (sep : List Char) (fuel : Nat) :
    ∀ (text acc : List Char), pySplitGo sep fuel text acc ≠ [] := by
  induction fuel with
  | zero => intro text acc; simp [pySplitGo]
  | succ fuel ih =>
    intro text acc
    rw [pySplitGo_succ]
    by_cases h : sep ≠ [] ∧ sep <+: text
    · rw [if_pos h]; simp
    · rw [if_neg h]
      cases text with
      | nil => simp
      | cons c rest => exact ih rest (c :: acc)

/-- The split/join round trip at the worker level: with enough fuel,
joining the pieces back with the separator restores the scanned text after
the pending accumulator. -/
theorem pySplitGo_join (sep : List Char) (hsep : sep ≠ []) (fuel : Nat) :
    ∀ (text acc : List Char), text.length ≤ fuel →
      joinWith sep (pySplitGo sep fuel text acc) = acc.reverse ++ text := by
  induction fuel with
  | zero =>
    intro text acc hf
    rw [pySplitGo_zero]
    rfl
  | succ fuel ih =>
    intro text acc hf
    rw [pySplitGo_succ]
    by_cases h : sep ≠ [] ∧ sep <+: text
    · rw [if_pos h]
      have hpre : sep ++ List.drop sep.length text = text :=
        List.prefix_iff_eq_append.mp h.2
      have hsl : 0 < sep.length := List.length_pos.mpr hsep
      have htl : sep.length ≤ text.length := h.2.length_le
      have hfl : (text.drop sep.length).length ≤ fuel := by
        rw [List.length_drop]
        omega
      rw [joinWith_cons_of_ne_nil sep _ _ (pySplitGo_ne_nil sep fuel _ _),
        ih (text.drop sep.length) [] hfl, List.reverse_nil, List.nil_append,
        List.append_assoc, hpre]
    · rw [if_neg h]
      cases text with
      | nil => simp [joinWith]
      | cons c rest =>
        have hfl : rest.length ≤ fuel := by
          simp only [List.length_cons] at hf
          omega
        rw [ih rest (c :: acc) hfl, List.reverse_cons, List.append_assoc]
        rfl

/-- Python round trip: `sep.join(text.split(sep)) == text`. -/
theorem pySplit_join (sep : List Char) (hsep : sep ≠ []) (text : List Char) :
    joinWith sep (pySplit sep text) = text := by
  rw [pySplit, pySplitGo_join sep hsep text.length text [] (le_refl _)]
  rfl

theorem chunk_loop_nil (cs ov : Nat) (sub : List Char → List (List Char))
    (sep : List Char) (chunks : List (List Char)) (cur : List Char) :
    chunk_loop cs ov sub sep [] chunks cur = (chunks, cur) := rfl

theorem chunk_loop_cons (cs ov : Nat) (sub : List Char → List (List Char))
    (sep split : List Char) (more chunks : List (List Char)) (cur : List Char) :
    chunk_loop cs ov sub sep (split :: more) chunks cur =
      if cs < cur.length + split.length + sep.length then
        if cur.isEmpty then
          if cs < split.length then
            chunk_loop cs ov sub sep more (chunks ++ sub split) cur
          else
            chunk_loop cs ov sub sep more chunks split
        else
          chunk_loop cs ov sub sep more (chunks ++ [pyStrip cur])
            (if 0 < ov then takeLast ov cur ++ sep ++ split else split)
      else
        chunk_loop cs ov sub sep more chunks
          (if cur.isEmpty then split else cur ++ sep ++ split) := rfl

/-- The loop of `_split_recursive`, with `chunk_overlap = 0`, preserves the
filtered character stream: dropped separators and stripped whitespace are
the only characters lost. -/
theorem chunk_loop_filter (cs : Nat) (sub : List Char → List (List Char))
    (sep : List Char) (keep : Char → Bool)
    (hsub : ∀ t, ((sub t).flatten).filter keep = t.filter keep)
    (hsep : sep.filter keep = [])
    (hws : ∀ c, c.isWhitespace = true → keep c = false) :
    ∀ (splits chunks : List (List Char)) (cur : List Char),
      ((chunk_loop cs 0 sub sep splits chunks cur).1.flatten ++
          (chunk_loop cs 0 sub sep splits chunks cur).2).filter keep =
        (chunks.flatten ++ (cur ++ splits.flatten)).filter keep := by
  intro splits
  induction splits with
  | nil =>
    intro chunks cur
    simp [chunk_loop_nil]
  | cons split more ih =>
    intro chunks cur
    rw [chunk_loop_cons]
    by_cases hcond : cs < cur.length + split.length + sep.length
    · rw [if_pos hcond]
      by_cases hcur : cur.isEmpty = true
      · rw [if_pos hcur]
        have hc : cur = [] := List.isEmpty_iff.mp hcur
        subst hc
        by_cases hbig : cs < split.length
        · rw [if_pos hbig, ih]
          simp [List.filter_append, List.flatten_append, List.flatten_cons, hsub]
        · rw [if_neg hbig, ih]
          simp [List.filter_append, List.flatten_cons]
      · rw [if_neg hcur, if_neg (by omega : ¬ (0 < 0)), ih]
        simp [List.filter_append, List.flatten_append, List.flatten_cons,
          filter_pyStrip keep hws]
    · rw [if_neg hcond, ih]
      by_cases hcur : cur.isEmpty = true
      · have hc : cur = [] := List.isEmpty_iff.mp hcur
        subst hc
        simp [List.filter_append, List.flatten_cons]
      · rw [if_neg hcur]
        simp [List.filter_append, List.flatten_cons, hsep]

theorem split_recursive_nil_seps (cs ov : Nat) (text : List Char) :
    split_recursive cs ov [] text = if text.isEmpty then [] else [text] := rfl

theorem split_recursive_cons (cs ov : Nat) (sep : List Char)
    (rest : List (List Char)) (text : List Char) :
    split_recursive cs ov (sep :: rest) text =
      if text.length ≤ cs then (if text.isEmpty then [] else [text])
      else
        (chunk_loop cs ov (fun t => split_recursive cs ov rest t) sep
            (pySplit sep text) [] []).1 ++
          (if (chunk_loop cs ov (fun t => split_recursive cs ov rest t) sep
              (pySplit sep text) [] []).2.isEmpty then []
           else [pyStrip (chunk_loop cs ov (fun t => split_recursive cs ov rest t) sep
              (pySplit sep text) [] []).2]) := rfl

/-- `_split_recursive` with `chunk_overlap = 0` loses only separator
characters and stripped whitespace: filtering both out of the concatenated
chunks recovers the filtered input text, for any separator list whose
entries are nonempty and made of discarded characters only. -/
theorem split_recursive_filter (cs : Nat) (keep : Char → Bool)
    (hws : ∀ c, c.isWhitespace = true → keep c = false) :
    ∀ (seps : List (List Char)),
      (∀ s ∈ seps, s ≠ []) → (∀ s ∈ seps, s.filter keep = []) →
      ∀ text : List Char,
        ((split_recursive cs 0 seps text).flatten).filter keep = text.filter keep := by
  intro seps
  induction seps with
  | nil =>
    intro _ _ text
    rw [split_recursive_nil_seps]
    by_cases he : text.isEmpty = true
    · rw [if_pos he, List.isEmpty_iff.mp he]
      rfl
    · rw [if_neg he]
      simp
  | cons sep rest ih =>
    intro hne hkill text
    rw [split_recursive_cons]
    by_cases hlen : text.length ≤ cs
    · rw [if_pos hlen]
      by_cases he : text.isEmpty = true
      · rw [if_pos he, List.isEmpty_iff.mp he]
        rfl
      · rw [if_neg he]
        simp
    · rw [if_neg hlen]
      have hsub : ∀ t, (((fun t => split_recursive cs 0 rest t) t).flatten).filter keep
          = t.filter keep :=
        ih (fun s hs => hne s (List.mem_cons_of_mem sep hs))
          (fun s hs => hkill s (List.mem_cons_of_mem sep hs))
      have hsepk : sep.filter keep = [] := hkill sep (List.mem_cons_self sep rest)
      have hloop := chunk_loop_filter cs (fun t => split_recursive cs 0 rest t) sep keep
        hsub hsepk hws (pySplit sep text) [] []
      have hjoin : ((pySplit sep text).flatten).filter keep = text.filter keep := by
        rw [← filter_joinWith keep sep hsepk,
          pySplit_join sep (hne sep (List.mem_cons_self sep rest)) text]
      by_cases hr : (chunk_loop cs 0 (fun t => split_recursive cs 0 rest t) sep
          (pySplit sep text) [] []).2.isEmpty = true
      · rw [if_pos hr]
        have h2 := List.isEmpty_iff.mp hr
        rw [List.append_nil]
        calc ((chunk_loop cs 0 (fun t => split_recursive cs 0 rest t) sep
              (pySplit sep text) [] []).1.flatten).filter keep
            = ((chunk_loop cs 0 (fun t => split_recursive cs 0 rest t) sep
              (pySplit sep text) [] []).1.flatten ++
              (chunk_loop cs 0 (fun t => split_recursive cs 0 rest t) sep
              (pySplit sep text) [] []).2).filter keep := by rw [h2, List.append_nil]
          _ = (([] : List (List Char)).flatten ++
              ([] ++ (pySplit sep text).flatten)).filter keep := hloop
          _ = text.filter keep := by
              rw [List.flatten_nil, List.nil_append, List.nil_append, hjoin]
      · rw [if_neg hr]
        rw [List.flatten_append, List.flatten_cons, List.flatten_nil,
          List.append_nil, List.filter_append, filter_pyStrip keep hws]
        rw [List.filter_append] at hloop
        rw [hloop, List.flatten_nil, List.nil_append, List.nil_append, hjoin]

/-! ## C6 — chunker round trip -/

/-- Characters surviving the round-trip comparison: everything except
whitespace and the period lost with the `". "` sentence separator. -/
def keepChunkChar : Char → Bool := fun c => !(c.isWhitespace || c == '.')

/-- Counterexample to C6: at `chunk_size = 3`, `overlap = 0`, the text
`"aa. bb"` splits into `["aa", "bb"]` — the sentence separator `". "`
between the two chunks is dropped, and its `'.'` is not whitespace, so the
concatenation differs from the input by more than chunk-boundary
whitespace (even after deleting *all* whitespace from both sides they
disagree). -/
theorem C6_counterexample :
    split_text 3 0 "aa. bb".data = [['a', 'a'], ['b', 'b']] ∧
    ((split_text 3 0 "aa. bb".data).flatten).filter (fun c => !c.isWhitespace) ≠
      ("aa. bb".data).filter (fun c => !c.isWhitespace) := by
  refine ⟨by decide, by decide⟩

/-- C6 as amended: with `overlap = 0` the concatenation of all chunks
reproduces the text up to characters dropped at chunk boundaries, which are
whitespace **or the `'.'` of the `". "` sentence separator**: filtering
both out of the concatenated chunks recovers the filtered input, for every
chunk size and text. -/
theorem C6_amended_round_trip (chunk_size : Nat) (text : List Char) :
    ((split_text chunk_size 0 text).flatten).filter keepChunkChar =
      text.filter keepChunkChar :=
  split_recursive_filter chunk_size keepChunkChar
    (fun c h => by simp [keepChunkChar, h])
    recursiveSeparators (by decide) (by decide) text

/-! ## C7 — chunk size bound -/

/-- The "single units" splitting can produce from `text` under a separator
list: `text` itself, or — recursively — a unit of some `text.split(sep)`
piece under the finer separators. -/
def is_piece : List (List Char) → List Char → List Char → Prop
  | [], text, p => p = text
  | sep :: rest, text, p => p = text ∨ ∃ q ∈ pySplit sep text, is_piece rest q p

theorem is_piece_self (seps : List (List Char)) (t : List Char) :
    is_piece seps t t := by
  cases seps with
  | nil => rfl
  | cons sep rest => exact Or.inl rfl

/-- Loop invariant for the oversized-chunk dichotomy (`overlap = 0`): all
emitted chunks are within the size cap or are (strips of) single split
pieces that exceed it, and the pending chunk is empty, within the cap, or a
single split piece. -/
theorem chunk_loop_oversize (cs : Nat) (sub : List Char → List (List Char))
    (sep : List Char) (rest : List (List Char)) (text : List Char)
    (hsub : ∀ t, ∀ c ∈ sub t, c.length ≤ cs ∨
      ∃ p, is_piece rest t p ∧ cs < p.length ∧ (c = p ∨ c = pyStrip p)) :
    ∀ (splits chunks : List (List Char)) (cur : List Char),
      (∀ s ∈ splits, s ∈ pySplit sep text) →
      (∀ c ∈ chunks, c.length ≤ cs ∨ ∃ p, is_piece (sep :: rest) text p ∧
        cs < p.length ∧ (c = p ∨ c = pyStrip p)) →
      (cur = [] ∨ cur.length ≤ cs ∨ cur ∈ pySplit sep text) →
      (∀ c ∈ (chunk_loop cs 0 sub sep splits chunks cur).1,
        c.length ≤ cs ∨ ∃ p, is_piece (sep :: rest) text p ∧ cs < p.length ∧
          (c = p ∨ c = pyStrip p)) ∧
      ((chunk_loop cs 0 sub sep splits chunks cur).2 = [] ∨
        (chunk_loop cs 0 sub sep splits chunks cur).2.length ≤ cs ∨
        (chunk_loop cs 0 sub sep splits chunks cur).2 ∈ pySplit sep text) := by
  intro splits
  induction splits with
  | nil =>
    intro chunks cur _ hch hcur
    rw [chunk_loop_nil]
    exact ⟨hch, hcur⟩
  | cons split more ih =>
    intro chunks cur hsp hch hcur
    have hsp2 : ∀ s ∈ more, s ∈ pySplit sep text :=
      fun s hs => hsp s (List.mem_cons_of_mem split hs)
    have hsplit : split ∈ pySplit sep text := hsp split (List.mem_cons_self split more)
    rw [chunk_loop_cons]
    by_cases hcond : cs < cur.length + split.length + sep.length
    · rw [if_pos hcond]
      by_cases hce : cur.isEmpty = true
      · rw [if_pos hce]
        by_cases hbig : cs < split.length
        · rw [if_pos hbig]
          refine ih (chunks ++ sub split) cur hsp2 ?_ hcur
          intro c hc
          rcases List.mem_append.mp hc with h1 | h1
          · exact hch c h1
          · rcases hsub split c h1 with h2 | ⟨p, hp1, hp2, hp3⟩
            · exact Or.inl h2
            · exact Or.inr ⟨p, Or.inr ⟨split, hsplit, hp1⟩, hp2, hp3⟩
        · rw [if_neg hbig]
          exact ih chunks split hsp2 hch (Or.inr (Or.inr hsplit))
      · rw [if_neg hce, if_neg (by omega : ¬ (0 < 0))]
        refine ih (chunks ++ [pyStrip cur]) split hsp2 ?_
          (Or.inr (Or.inr hsplit))
        intro c hc
        rcases List.mem_append.mp hc with h1 | h1
        · exact hch c h1
        · have hc2 : c = pyStrip cur := List.mem_singleton.mp h1
          rcases hcur with h3 | h3 | h3
          · exact absurd (List.isEmpty_iff.mpr h3) hce
          · exact Or.inl (hc2 ▸ le_trans (pyStrip_length_le cur) h3)
          · by_cases h4 : cur.length ≤ cs
            · exact Or.inl (hc2 ▸ le_trans (pyStrip_length_le cur) h4)
            · exact Or.inr ⟨cur, Or.inr ⟨cur, h3, is_piece_self rest cur⟩,
                by omega, Or.inr hc2⟩
    · rw [if_neg hcond]
      by_cases hce : cur.isEmpty = true
      · rw [if_pos hce]
        have hc : cur = [] := List.isEmpty_iff.mp hce
        refine ih chunks split hsp2 hch (Or.inr (Or.inl ?_))
        subst hc
        simp only [List.length_nil] at hcond
        omega
      · rw [if_neg hce]
        refine ih chunks (cur ++ sep ++ split) hsp2 hch (Or.inr (Or.inl ?_))
        rw [List.length_append, List.length_append]
        omega

/-- Every chunk `_split_recursive` emits with `overlap = 0` is within the
size cap, or is (the strip of) one single splitting unit that itself
exceeds the cap — whether or not finer separators remain inside it. -/
theorem split_recursive_chunk_bound (cs : Nat) :
    ∀ (seps : List (List Char)) (text : List Char),
      ∀ c ∈ split_recursive cs 0 seps text,
        c.length ≤ cs ∨ ∃ p, is_piece seps text p ∧ cs < p.length ∧
          (c = p ∨ c = pyStrip p) := by
  intro seps
  induction seps with
  | nil =>
    intro text c hc
    rw [split_recursive_nil_seps] at hc
    by_cases he : text.isEmpty = true
    · rw [if_pos he] at hc
      exact absurd hc (List.not_mem_nil c)
    · rw [if_neg he] at hc
      have hc2 : c = text := List.mem_singleton.mp hc
      by_cases hlen : text.length ≤ cs
      · exact Or.inl (hc2 ▸ hlen)
      · exact Or.inr ⟨text, rfl, by omega, Or.inl hc2⟩
  | cons sep rest ih =>
    intro text c hc
    rw [split_recursive_cons] at hc
    by_cases hlen : text.length ≤ cs
    · rw [if_pos hlen] at hc
      by_cases he : text.isEmpty = true
      · rw [if_pos he] at hc
        exact absurd hc (List.not_mem_nil c)
      · rw [if_neg he] at hc
        exact Or.inl ((List.mem_singleton.mp hc) ▸ hlen)
    · rw [if_neg hlen] at hc
      have hloop := chunk_loop_oversize cs (fun t => split_recursive cs 0 rest t)
        sep rest text (fun t c2 hc2 => ih t c2 hc2) (pySplit sep text) [] []
        (fun s hs => hs) (fun c2 hc2 => absurd hc2 (List.not_mem_nil c2)) (Or.inl rfl)
      rcases List.mem_append.mp hc with h1 | h1
      · exact hloop.1 c h1
      · by_cases hr : (chunk_loop cs 0 (fun t => split_recursive cs 0 rest t) sep
            (pySplit sep text) [] []).2.isEmpty = true
        · rw [if_pos hr] at h1
          exact absurd h1 (List.not_mem_nil c)
        · rw [if_neg hr] at h1
          have hc2 : c = pyStrip (chunk_loop cs 0 (fun t => split_recursive cs 0 rest t)
              sep (pySplit sep text) [] []).2 := List.mem_singleton.mp h1
          rcases hloop.2 with h3 | h3 | h3
          · exact absurd (List.isEmpty_iff.mpr h3) (by simpa using hr)
          · exact Or.inl (hc2 ▸ le_trans (pyStrip_length_le _) h3)
          · by_cases h4 : (chunk_loop cs 0 (fun t => split_recursive cs 0 rest t) sep
                (pySplit sep text) [] []).2.length ≤ cs
            · exact Or.inl (hc2 ▸ le_trans (pyStrip_length_le _) h4)
            · exact Or.inr ⟨_, Or.inr ⟨_, h3, is_piece_self rest _⟩, by omega,
                Or.inr hc2⟩

/-- Counterexample to C7: at `chunk_size = 5`, `overlap = 0`, the text
`"ab\n\nc d e f"` yields the chunk `"c d e f"` of length 7 > 5 even though
it is not an atomic unit: the word separator `" "` — still available to the
splitter — splits it into four pieces.  (The oversized paragraph piece
followed the nonempty running chunk `"ab"`, so the code emitted it without
recursing into the finer separators.) -/
theorem C7_counterexample :
    split_text 5 0 "ab\n\nc d e f".data =
      [['a', 'b'], ['c', ' ', 'd', ' ', 'e', ' ', 'f']] ∧
    5 < ['c', ' ', 'd', ' ', 'e', ' ', 'f'].length ∧
    " ".data ∈ recursiveSeparators ∧
    pySplit " ".data ['c', ' ', 'd', ' ', 'e', ' ', 'f'] ≠
      [['c', ' ', 'd', ' ', 'e', ' ', 'f']] := by
  refine ⟨by decide, by decide, by decide, by decide⟩

/-- C7 as amended: with `overlap = 0`, every chunk either fits the cap or
is (the whitespace strip of) one single splitting unit longer than the cap;
such a unit is emitted unsplit whenever it does not start a fresh chunk,
so it may still contain finer separators — only when no separators remain
is a piece necessarily emitted as-is. -/
theorem C7_amended_chunk_bound :
    (∀ (cs ov : Nat) (text : List Char),
      split_recursive cs ov [] text = if text.isEmpty then [] else [text]) ∧
    (∀ (cs : Nat) (seps : List (List Char)) (text : List Char),
      ∀ c ∈ split_recursive cs 0 seps text,
        c.length ≤ cs ∨ ∃ p, is_piece seps text p ∧ cs < p.length ∧
          (c = p ∨ c = pyStrip p)) :=
  ⟨fun cs ov text => split_recursive_nil_seps cs ov text,
   fun cs => split_recursive_chunk_bound cs⟩

/-- Witness for C7 as amended: the no-separator base case at a concrete
oversized text, and the dichotomy at the oversized chunk of the
`"ab\n\nc d e f"` run. -/
theorem C7_amended_chunk_bound_witness :
    split_recursive 3 7 [] ['a', 'b', 'c', 'd', 'e'] = [['a', 'b', 'c', 'd', 'e']] ∧
    (['c', ' ', 'd', ' ', 'e', ' ', 'f'].length ≤ 5 ∨
      ∃ p, is_piece recursiveSeparators "ab\n\nc d e f".data p ∧ 5 < p.length ∧
        (['c', ' ', 'd', ' ', 'e', ' ', 'f'] = p ∨
          ['c', ' ', 'd', ' ', 'e', ' ', 'f'] = pyStrip p)) := by
  constructor
  · exact (C7_amended_chunk_bound.1 3 7 ['a', 'b', 'c', 'd', 'e']).trans (by decide)
  · exact C7_amended_chunk_bound.2 5 recursiveSeparators "ab\n\nc d e f".data
      ['c', ' ', 'd', ' ', 'e', ' ', 'f'] (by decide)
